import Mathlib

/-!
Verification of the mcp-server-smtp repository: a shallow embedding of its
configuration loading (src/config.ts), request handling (requestHandler.ts)
and bulk dispatch engine, together with theorems about the behaviour the
specification describes.

Conventions of the embedding:
* TypeScript objects become structures; optional fields become `Option`.
* JavaScript exceptions become `Except String`; a `try/catch` becomes a
  `match` on the `Except` value.
* The filesystem and the external mail transport are oracles passed in as
  function arguments, so every behaviour of the environment (including I/O
  failure) is a concrete instantiation.
* ISO timestamp strings are represented by their `getTime` value as a `Nat`,
  which is the only way the code ever consumes them (comparison in the sort).
-/

namespace SmtpMcp

/-- A recipient as in the tool schemas: an email address and an optional
display name (`{email, name?}`). -/
structure EmailRecipient where
  email : String
  name : Option String
deriving Repr, DecidableEq

/-- Credential pair of `SmtpServerConfig.auth` in src/config.ts. -/
structure SmtpAuth where
  user : String
  pass : String
deriving Repr, DecidableEq

/-- `SmtpServerConfig` from src/config.ts. -/
structure SmtpServerConfig where
  id : String
  name : String
  host : String
  port : Nat
  secure : Bool
  auth : SmtpAuth
  isDefault : Bool
deriving Repr, DecidableEq

/-- `RateLimitConfig` from src/config.ts. -/
structure RateLimitConfig where
  enabled : Bool
  messagesPerMinute : Nat
deriving Repr, DecidableEq

/-- `SmtpConfig` from src/config.ts: the server list plus the rate limit
field (carried opaquely; no claim concerns it). -/
structure SmtpConfig where
  smtpServers : List SmtpServerConfig
  rateLimit : Option RateLimitConfig
deriving Repr, DecidableEq

/-- The shapes the `smtpServers` field of the decoded JSON object can have:
absent (JS `parsedJson.smtpServers || []` then yields `[]`), present but not
an array (the `Array.isArray` check fails), or an actual array. -/
inductive ServersField where
  | missing
  | notArray
  | arr (servers : List SmtpServerConfig)
deriving Repr, DecidableEq

/-- The observable outcomes of reading and decoding `SMTP_CONFIG_BASE64`:
the variable is unset, the base64/JSON decode throws, or it decodes to an
object with the given `smtpServers` and `rateLimit` fields. -/
inductive EnvConfig where
  | noEnv
  | badJson
  | decoded (smtpServers : ServersField) (rateLimit : Option RateLimitConfig)
deriving Repr, DecidableEq

/-- Load-time default normalization, src/config.ts lines 107–114: if no
server has `isDefault` set, the first server is mutated to `isDefault :=
true`; otherwise the list is left untouched. -/
def normalizeDefault (servers : List SmtpServerConfig) : List SmtpServerConfig :=
  if servers.any (fun s => s.isDefault) then servers
  else
    match servers with
    | [] => []
    | s :: rest => { s with isDefault := true } :: rest

/-- `parseSmtpConfigFromEnv` from src/config.ts: throws when the env var is
absent, when decoding fails, and when `smtpServers` is missing, not an
array, or empty; otherwise normalizes the default flag and returns the
config. -/
def parseSmtpConfigFromEnv : EnvConfig → Except String SmtpConfig
  | .noEnv => .error "No config in env!"
  | .badJson => .error "JSON parse error"
  | .decoded field rl =>
    match field with
    | .notArray => .error "Config not parsed!"
    | .missing => .error "Config not parsed!"
    | .arr servers =>
      if servers.length = 0 then .error "Config not parsed!"
      else .ok { smtpServers := normalizeDefault servers, rateLimit := rl }

/-- `getSmtpConfigs` from src/config.ts: returns the cached config's server
list, populating the cache from the environment on first use; a parse
failure propagates to the caller. Returns the response together with the new
cache contents. -/
def getSmtpConfigs (cached : Option SmtpConfig) (env : EnvConfig) :
    Except String (List SmtpServerConfig) × Option SmtpConfig :=
  match cached with
  | some c => (.ok c.smtpServers, some c)
  | none =>
    match parseSmtpConfigFromEnv env with
    | .error e => (.error e, none)
    | .ok c => (.ok c.smtpServers, some c)

/-- Number of servers in a list carrying the default flag. -/
def countDefaults (servers : List SmtpServerConfig) : Nat :=
  servers.countP (fun s => s.isDefault)

/-- A sample server record used in concrete witnesses. -/
def mkServer (id : String) (isDefault : Bool) : SmtpServerConfig :=
  { id := id, name := id, host := "smtp.example.com", port := 587,
    secure := false, auth := { user := "user", pass := "pw" },
    isDefault := isDefault }

/-- The malformed-environment cases of src/config.ts: no env var, a decode
failure, a missing or non-array `smtpServers` field, or an empty server
array. -/
def envMalformed : EnvConfig → Prop
  | .noEnv => True
  | .badJson => True
  | .decoded field _ =>
    match field with
    | .arr servers => servers = []
    | .missing => True
    | .notArray => True

/-- `EmailLogEntry` from src/config.ts; the timestamp is represented by its
`getTime` value (epoch milliseconds), which is how the handler consumes it. -/
structure EmailLogEntry where
  timestamp : Nat
  smtpConfig : String
  templateId : Option String
  recipient : String
  subject : String
  success : Bool
  message : Option String
deriving Repr, DecidableEq

/-- The sort order of the get-email-logs handler: newest first, i.e. an
entry precedes another when its timestamp is at least as large. -/
def newestFirst (a b : EmailLogEntry) : Prop :=
  b.timestamp ≤ a.timestamp

instance : DecidableRel newestFirst := fun a b =>
  inferInstanceAs (Decidable (b.timestamp ≤ a.timestamp))

instance : IsTotal EmailLogEntry newestFirst :=
  ⟨fun a b => (Nat.le_total b.timestamp a.timestamp).elim Or.inl Or.inr⟩

instance : IsTrans EmailLogEntry newestFirst :=
  ⟨fun _ _ _ hab hbc => Nat.le_trans hbc hab⟩

/-- The filtering stage of the get-email-logs handler
(requestHandler lines 62–66): when `filterBySuccess` is given, keep only the
entries whose success flag equals it. -/
def matchingLogs (logs : List EmailLogEntry) (filterBySuccess : Option Bool) :
    List EmailLogEntry :=
  match filterBySuccess with
  | none => logs
  | some b => logs.filter (fun e => e.success == b)

/-- The get-email-logs handler (requestHandler lines 52–94): filter by
success when requested, sort newest-first by timestamp, then truncate to
`limit` entries — but only when `limit` is a strictly positive number
(JS `if (limit && limit > 0)`). -/
def getEmailLogsResult (logs : List EmailLogEntry) (filterBySuccess : Option Bool)
    (limit : Option Int) : List EmailLogEntry :=
  let sorted := List.insertionSort newestFirst (matchingLogs logs filterBySuccess)
  match limit with
  | none => sorted
  | some k => if 0 < k then sorted.take k.toNat else sorted

/-- A sample log entry used in concrete witnesses. -/
def mkLog (ts : Nat) (success : Bool) : EmailLogEntry :=
  { timestamp := ts, smtpConfig := "a", templateId := none,
    recipient := "r@example.com", subject := "s", success := success,
    message := none }

/-- C3 (counterexample): the claim says exactly one config carries the
default flag after normalization for every input set, including sets where
several configs were already marked default; but on a set of two configs
both already marked default, normalization leaves both marked, so two
configs carry the flag. -/
theorem C3_counterexample :
    countDefaults (normalizeDefault [mkServer "a" true, mkServer "b" true]) ≠ 1 := by
  decide

/-- C3 (amended): for every nonempty loaded set in which at most one config
was already marked default, exactly one config carries the default flag
after normalization; and when none was marked, the first config in load
order is the one promoted. -/
theorem C3_defaultNormalization (servers : List SmtpServerConfig)
    (hne : servers ≠ []) (hle : countDefaults servers ≤ 1) :
    countDefaults (normalizeDefault servers) = 1 ∧
    (countDefaults servers = 0 →
      ∃ s rest, servers = s :: rest ∧
        normalizeDefault servers = { s with isDefault := true } :: rest) := by
  match servers, hne with
  | s :: rest, _ =>
    by_cases hany : (s :: rest).any (fun s => s.isDefault) = true
    · constructor
      · have h1 : 1 ≤ countDefaults (s :: rest) := by
          rcases List.any_eq_true.mp hany with ⟨x, hx, hpx⟩
          have := List.countP_pos_iff.mpr ⟨x, hx, hpx⟩
          simpa [countDefaults] using this
        have : normalizeDefault (s :: rest) = s :: rest := by
          simp [normalizeDefault, hany]
        rw [this]
        omega
      · intro h0
        exfalso
        rcases List.any_eq_true.mp hany with ⟨x, hx, hpx⟩
        have hz : ∀ a ∈ s :: rest, ¬ ((fun s => s.isDefault) a = true) :=
          List.countP_eq_zero.mp h0
        exact hz x hx hpx
    · have hall : ∀ x ∈ s :: rest, ¬ (x.isDefault = true) := by
        intro x hx hpx
        exact hany (List.any_eq_true.mpr ⟨x, hx, hpx⟩)
      have hnorm : normalizeDefault (s :: rest) = { s with isDefault := true } :: rest := by
        simp [normalizeDefault, hany]
      constructor
      · rw [hnorm]
        have hrest : rest.countP (fun s => s.isDefault) = 0 :=
          List.countP_eq_zero.mpr (fun x hx => hall x (List.mem_cons_of_mem s hx))
        simp [countDefaults, List.countP_cons, hrest]
      · intro _
        exact ⟨s, rest, rfl, hnorm⟩

/-- C3 (witness for the amended theorem): on the spec scenario
`[{id:"a",default:false},{id:"b",default:false}]`, after initialization
exactly one config is default and it is "a". -/
theorem C3_defaultNormalization_witness :
    ([mkServer "a" false, mkServer "b" false] ≠ ([] : List SmtpServerConfig)) ∧
    countDefaults [mkServer "a" false, mkServer "b" false] ≤ 1 ∧
    (countDefaults (normalizeDefault [mkServer "a" false, mkServer "b" false]) = 1 ∧
      (countDefaults [mkServer "a" false, mkServer "b" false] = 0 →
        ∃ s rest, [mkServer "a" false, mkServer "b" false] = s :: rest ∧
          normalizeDefault [mkServer "a" false, mkServer "b" false] =
            { s with isDefault := true } :: rest)) :=
  ⟨by decide, by decide,
    C3_defaultNormalization [mkServer "a" false, mkServer "b" false]
      (by decide) (by decide)⟩

/-- C4: with an uninitialized cache, every malformed environment (missing
variable, decode failure, missing/non-array/empty `smtpServers`) makes
`getSmtpConfigs` fail with an error rather than answer, and every successful
answer of `getSmtpConfigs` is a nonempty list — it never silently yields an
empty configuration list. -/
theorem C4_noSilentEmptyConfigs :
    (∀ env : EnvConfig, envMalformed env →
      (getSmtpConfigs none env).1.isOk = false) ∧
    (∀ (env : EnvConfig) (l : List SmtpServerConfig),
      (getSmtpConfigs none env).1 = .ok l → l ≠ []) := by
  constructor
  · intro env hmal
    match env with
    | .noEnv => rfl
    | .badJson => rfl
    | .decoded field rl =>
      match field with
      | .missing => rfl
      | .notArray => rfl
      | .arr servers =>
        have hempty : servers = [] := hmal
        subst hempty
        rfl
  · intro env l hok
    match env with
    | .decoded (.arr servers) rl =>
      by_cases hlen : servers.length = 0
      · simp [getSmtpConfigs, parseSmtpConfigFromEnv, hlen] at hok
      · have hne : servers ≠ [] := by
          intro h
          exact hlen (by simp [h])
        simp [getSmtpConfigs, parseSmtpConfigFromEnv, hlen] at hok
        match servers, hne with
        | s :: rest, _ =>
          subst hok
          by_cases hany : (s :: rest).any (fun s => s.isDefault) = true <;>
            simp [normalizeDefault, hany]

/-- C4 (witness): the no-environment case errors, and the parse of a
one-server environment yields a nonempty list. -/
theorem C4_noSilentEmptyConfigs_witness :
    (getSmtpConfigs none .noEnv).1.isOk = false :=
  C4_noSilentEmptyConfigs.1 .noEnv trivial

/-- Every entry returned by the get-email-logs handler passed the filtering
stage. -/
theorem mem_matchingLogs_of_mem_result {logs : List EmailLogEntry}
    {fb : Option Bool} {limit : Option Int} {e : EmailLogEntry}
    (h : e ∈ getEmailLogsResult logs fb limit) : e ∈ matchingLogs logs fb := by
  have hperm := List.perm_insertionSort newestFirst (matchingLogs logs fb)
  match limit with
  | none => exact hperm.mem_iff.mp h
  | some k =>
    by_cases hk : 0 < k
    · simp only [getEmailLogsResult, hk, if_pos] at h
      exact hperm.mem_iff.mp (List.mem_of_mem_take h)
    · simp only [getEmailLogsResult, hk, if_neg, if_false] at h
      exact hperm.mem_iff.mp h

/-- The get-email-logs handler always returns a newest-first sorted list. -/
theorem sorted_getEmailLogsResult (logs : List EmailLogEntry)
    (fb : Option Bool) (limit : Option Int) :
    (getEmailLogsResult logs fb limit).Sorted newestFirst := by
  have hsorted := List.sorted_insertionSort newestFirst (matchingLogs logs fb)
  match limit with
  | none => exact hsorted
  | some k =>
    by_cases hk : 0 < k
    · simp only [getEmailLogsResult, hk, if_pos]
      exact hsorted.sublist (List.take_sublist _ _)
    · simp only [getEmailLogsResult, hk, if_neg, if_false]
      exact hsorted

/-- C5: for every stored log sequence, get-email-logs with
`filterBySuccess = b` returns only entries whose success flag equals `b`,
sorted newest-first by timestamp (pairwise: each entry's timestamp is at
least the timestamp of every later entry). -/
theorem C5_filterBySuccess (logs : List EmailLogEntry) (b : Bool)
    (limit : Option Int) :
    (∀ e ∈ getEmailLogsResult logs (some b) limit, e.success = b) ∧
    (getEmailLogsResult logs (some b) limit).Sorted newestFirst := by
  refine ⟨fun e he => ?_, sorted_getEmailLogsResult logs (some b) limit⟩
  have hm : e ∈ matchingLogs logs (some b) := mem_matchingLogs_of_mem_result he
  have := List.of_mem_filter hm
  simpa using this

/-- C5 (witness): the theorem applied to a concrete three-entry log. -/
theorem C5_filterBySuccess_witness :
    (∀ e ∈ getEmailLogsResult [mkLog 1 true, mkLog 5 false, mkLog 3 true]
        (some true) none, e.success = true) ∧
    (getEmailLogsResult [mkLog 1 true, mkLog 5 false, mkLog 3 true]
        (some true) none).Sorted newestFirst :=
  C5_filterBySuccess [mkLog 1 true, mkLog 5 false, mkLog 3 true] true none

/-- C6: with a strictly positive `limit = k`, get-email-logs returns at most
`k` entries, and they are the most recent among the entries matching the
filter: any matching entry strictly newer than a returned entry is itself
returned. -/
theorem C6_limit (logs : List EmailLogEntry) (fb : Option Bool) (k : Int)
    (hk : 0 < k) :
    (getEmailLogsResult logs fb (some k)).length ≤ k.toNat ∧
    (∀ x ∈ getEmailLogsResult logs fb (some k), ∀ y ∈ matchingLogs logs fb,
      x.timestamp < y.timestamp → y ∈ getEmailLogsResult logs fb (some k)) := by
  have hres : getEmailLogsResult logs fb (some k) =
      (List.insertionSort newestFirst (matchingLogs logs fb)).take k.toNat := by
    simp only [getEmailLogsResult, hk, if_pos]
  constructor
  · rw [hres, List.length_take]
    exact Nat.min_le_left _ _
  · intro x hx y hy hlt
    have hyS : y ∈ List.insertionSort newestFirst (matchingLogs logs fb) :=
      (List.perm_insertionSort newestFirst (matchingLogs logs fb)).mem_iff.mpr hy
    have hS := List.sorted_insertionSort newestFirst (matchingLogs logs fb)
    rw [hres] at hx ⊢
    have hsplit := List.take_append_drop k.toNat
      (List.insertionSort newestFirst (matchingLogs logs fb))
    rw [← hsplit] at hyS hS
    rcases List.mem_append.mp hyS with hyTake | hyDrop
    · exact hyTake
    · exfalso
      have hrel : newestFirst x y :=
        (List.pairwise_append.mp hS).2.2 x hx y hyDrop
      exact absurd hrel (by simp [newestFirst]; omega)

/-- C6 (witness): the theorem applied to a concrete three-entry log with
`limit = 2`. -/
theorem C6_limit_witness :
    (0 : Int) < 2 ∧
    (((getEmailLogsResult [mkLog 1 true, mkLog 5 false, mkLog 3 true]
        none (some 2)).length ≤ (2 : Int).toNat) ∧
    (∀ x ∈ getEmailLogsResult [mkLog 1 true, mkLog 5 false, mkLog 3 true]
        none (some 2),
      ∀ y ∈ matchingLogs [mkLog 1 true, mkLog 5 false, mkLog 3 true] none,
      x.timestamp < y.timestamp →
        y ∈ getEmailLogsResult [mkLog 1 true, mkLog 5 false, mkLog 3 true]
          none (some 2))) :=
  ⟨by decide,
    C6_limit [mkLog 1 true, mkLog 5 false, mkLog 3 true] none 2 (by decide)⟩

/-- C9: a zero or negative `limit` is ignored — the handler returns exactly
what it returns with no limit at all (all matching entries), because the
truncation is applied only when the limit is strictly positive. -/
theorem C9_nonPositiveLimit (logs : List EmailLogEntry) (fb : Option Bool)
    (k : Int) (hk : k ≤ 0) :
    getEmailLogsResult logs fb (some k) = getEmailLogsResult logs fb none := by
  have : ¬ 0 < k := by omega
  simp only [getEmailLogsResult, this, if_neg, if_false]

/-- C9 (witness): with `limit = 0` on a concrete two-entry log, the handler
returns both entries, same as with no limit. -/
theorem C9_nonPositiveLimit_witness :
    (0 : Int) ≤ 0 ∧
    getEmailLogsResult [mkLog 1 true, mkLog 5 false] none (some 0) =
      getEmailLogsResult [mkLog 1 true, mkLog 5 false] none none :=
  ⟨le_refl 0, C9_nonPositiveLimit [mkLog 1 true, mkLog 5 false] none 0 (by decide)⟩

/-- Oracle for the filesystem operations used by `logEmailActivity`
(src/config.ts lines 167–193): each operation either yields a value or
throws. `readJson` is the parsed contents of the log file; `writeJson` is
given the list to persist. -/
structure Fs where
  ensureDir : Except String Unit
  pathExists : Except String Bool
  readJson : Except String (List EmailLogEntry)
  writeJson : List EmailLogEntry → Except String Unit

/-- The body of the `try` block of `logEmailActivity`: ensure the config
directory, read the existing logs when the file exists (else start from
`[]`), push the new entry, and write the updated list back; the first
throwing step aborts the block. Returns the list that was written. -/
def logEmailActivityRun (fs : Fs) (entry : EmailLogEntry) :
    Except String (List EmailLogEntry) :=
  match fs.ensureDir with
  | .error e => .error e
  | .ok _ =>
    match fs.pathExists with
    | .error e => .error e
    | .ok ex =>
      match (if ex then fs.readJson else .ok []) with
      | .error e => .error e
      | .ok logs =>
        match fs.writeJson (logs ++ [entry]) with
        | .error e => .error e
        | .ok _ => .ok (logs ++ [entry])

/-- `logEmailActivity` from src/config.ts: runs the try block and converts
the outcome to a Bool — `true` when the write went through, `false` when any
step threw (the catch branch). It is a total function into `Bool`: no error
reaches its caller. -/
def logEmailActivity (fs : Fs) (entry : EmailLogEntry) : Bool :=
  match logEmailActivityRun fs entry with
  | .ok _ => true
  | .error _ => false

/-- An all-succeeding filesystem oracle whose log file holds `stored`,
used in concrete witnesses. -/
def okFs (stored : List EmailLogEntry) : Fs :=
  { ensureDir := .ok ()
    pathExists := .ok true
    readJson := .ok stored
    writeJson := fun _ => .ok () }

/-- C7: for every behaviour of the underlying storage, the audit append
returns normally with a boolean: it returns `true` exactly when every
storage step (directory creation, existence check, read, write) succeeded,
and `false` exactly when some step failed — never propagating the error. -/
theorem C7_appendNeverThrows (fs : Fs) (entry : EmailLogEntry) :
    (logEmailActivity fs entry = true ↔
      ∃ l, logEmailActivityRun fs entry = .ok l) ∧
    (logEmailActivity fs entry = false ↔
      ∃ e, logEmailActivityRun fs entry = .error e) := by
  unfold logEmailActivity
  match hrun : logEmailActivityRun fs entry with
  | .ok l =>
    constructor
    · simp
    · constructor
      · intro h
        cases h
      · rintro ⟨e, he⟩
        cases he
  | .error e =>
    constructor
    · constructor
      · intro h
        cases h
      · rintro ⟨l, hl⟩
        cases hl
    · simp

/-- C7 (witness): with an all-succeeding storage oracle the append reports
`true`, and with a storage whose write fails it reports `false`. -/
theorem C7_appendNeverThrows_witness :
    (logEmailActivity (okFs []) (mkLog 1 true) = true ↔
      ∃ l, logEmailActivityRun (okFs []) (mkLog 1 true) = .ok l) ∧
    (logEmailActivity (okFs []) (mkLog 1 true) = false ↔
      ∃ e, logEmailActivityRun (okFs []) (mkLog 1 true) = .error e) :=
  C7_appendNeverThrows (okFs []) (mkLog 1 true)

/-- C8: when the log file exists and holds the prior sequence, a successful
append writes exactly the prior sequence with the new entry at the end:
every prior entry keeps its position, nothing is removed, and exactly one
entry is added. -/
theorem C8_appendOnly (fs : Fs) (entry : EmailLogEntry)
    (prior res : List EmailLogEntry)
    (hex : fs.pathExists = .ok true) (hrd : fs.readJson = .ok prior)
    (hrun : logEmailActivityRun fs entry = .ok res) :
    res = prior ++ [entry] ∧ res.take prior.length = prior ∧
    res.drop prior.length = [entry] ∧ res.length = prior.length + 1 := by
  have hres : res = prior ++ [entry] := by
    unfold logEmailActivityRun at hrun
    match hd : fs.ensureDir with
    | .error e => rw [hd] at hrun; cases hrun
    | .ok _ =>
      rw [hd, hex] at hrun
      simp only [if_true, hrd] at hrun
      match hw : fs.writeJson (prior ++ [entry]) with
      | .error e => rw [hw] at hrun; cases hrun
      | .ok _ =>
        rw [hw] at hrun
        cases hrun
        rfl
  subst hres
  refine ⟨rfl, ?_, ?_, by simp⟩
  · exact List.take_left prior [entry]
  · exact List.drop_left prior [entry]

/-- C8 (witness): appending to a one-entry log through an all-succeeding
oracle yields exactly the old entry followed by the new one. -/
theorem C8_appendOnly_witness :
    [mkLog 1 true, mkLog 2 false] = [mkLog 1 true] ++ [mkLog 2 false] ∧
    ([mkLog 1 true, mkLog 2 false]).take ([mkLog 1 true]).length = [mkLog 1 true] ∧
    ([mkLog 1 true, mkLog 2 false]).drop ([mkLog 1 true]).length = [mkLog 2 false] ∧
    ([mkLog 1 true, mkLog 2 false]).length = ([mkLog 1 true]).length + 1 :=
  C8_appendOnly (okFs [mkLog 1 true]) (mkLog 2 false) [mkLog 1 true]
    [mkLog 1 true, mkLog 2 false] rfl rfl rfl

/-- `EmailData` from emailService as consumed by requestHandler: the shape
`handleSendEmail` builds before calling `sendEmail`. The JS `from` and `to`
fields are named `sender` and `toRecipients` here (`from` and `to` are
reserved words in Lean). -/
structure EmailData where
  toRecipients : List EmailRecipient
  subject : String
  body : String
  sender : Option EmailRecipient
  cc : Option (List EmailRecipient)
  bcc : Option (List EmailRecipient)
  templateId : Option String
  templateData : Option (List (String × String))
deriving DecidableEq

/-- The `to` argument of a send-email request as received over the wire: a
single recipient object or an array of them. -/
inductive ToParam where
  | single (r : EmailRecipient)
  | arr (rs : List EmailRecipient)
deriving DecidableEq

/-- The parameters of a send-email tool call (requestHandler lines
121–139). -/
structure SendEmailParams where
  toRecipients : ToParam
  subject : String
  body : String
  sender : Option EmailRecipient
  cc : Option (List EmailRecipient)
  bcc : Option (List EmailRecipient)
  templateId : Option String
  templateData : Option (List (String × String))
  smtpConfigId : Option String
deriving DecidableEq

/-- The result shape `sendEmail` reports back to the handler. -/
structure SendResult where
  success : Bool
  message : String
deriving DecidableEq

/-- The structured response `handleSendEmail` returns to the client. -/
structure HandlerResponse where
  success : Bool
  message : String
  text : String
deriving DecidableEq

/-- `handleSendEmail` from requestHandler lines 121–139: wraps a
non-array `to` into a one-element array
(`Array.isArray(parameters.to) ? parameters.to : [parameters.to]`),
assembles the `EmailData`, and calls `sendEmail` with the optional SMTP
config id, converting the outcome into the response shape. `sendEmail`
itself lives in the absent emailService module and is passed in as an
oracle. -/
def handleSendEmail (sendEmail : EmailData → Option String → SendResult)
    (parameters : SendEmailParams) : HandlerResponse :=
  let toList : List EmailRecipient :=
    match parameters.toRecipients with
    | .arr rs => rs
    | .single r => [r]
  let emailData : EmailData :=
    { toRecipients := toList, subject := parameters.subject, body := parameters.body,
      sender := parameters.sender, cc := parameters.cc, bcc := parameters.bcc,
      templateId := parameters.templateId,
      templateData := parameters.templateData }
  let result := sendEmail emailData parameters.smtpConfigId
  { success := result.success, message := result.message,
    text := if result.success then "Email sent successfully"
      else "Failed to send email: " ++ result.message }

/-- C10: a send-email request whose `to` is a single recipient object is
handled exactly like the same request with `to` given as the one-element
array holding that recipient, for every behaviour of the underlying
`sendEmail`. -/
theorem C10_singleRecipientWrapped
    (sendEmail : EmailData → Option String → SendResult)
    (p : SendEmailParams) (r : EmailRecipient) :
    handleSendEmail sendEmail { p with toRecipients := .single r } =
      handleSendEmail sendEmail { p with toRecipients := .arr [r] } :=
  rfl

/-- Modelled from the spec: the batching step of `sendBulkEmails` in the
emailService module, which is not present under src/. Per the spec, the
bulk dispatch engine partitions the recipient list into contiguous groups
of `batchSize`, the last group possibly smaller; the BulkRequest invariant
guarantees `batchSize ≥ 1`, so the `batchSize = 0` case (which the JS loop
would never terminate on) is mapped to the empty partition. -/
def chunkRecipients : Nat → List α → List (List α)
  | _, [] => []
  | 0, _ :: _ => []
  | B + 1, x :: xs =>
    (x :: xs).take (B + 1) :: chunkRecipients (B + 1) ((x :: xs).drop (B + 1))
termination_by B l => l.length
decreasing_by simp; omega

/-- Chunking a nonempty list yields a nonempty partition. -/
theorem chunkRecipients_ne_nil (B : Nat) (x : α) (xs : List α) :
    chunkRecipients (B + 1) (x :: xs) ≠ [] := by
  simp [chunkRecipients]

/-- Concatenating the batches in order yields the original list. -/
theorem chunkRecipients_flatten (B : Nat) :
    ∀ l : List α, (chunkRecipients (B + 1) l).flatten = l
  | [] => by simp [chunkRecipients]
  | x :: xs => by
    rw [chunkRecipients, List.flatten_cons,
      chunkRecipients_flatten B ((x :: xs).drop (B + 1))]
    exact List.take_append_drop _ _
termination_by l => l.length
decreasing_by simp; omega

/-- One step of the ceiling-division recurrence behind the batch count. -/
theorem ceil_div_step (B n : Nat) (h : 1 ≤ n) :
    (n - (B + 1) + B) / (B + 1) + 1 = (n + B) / (B + 1) := by
  by_cases hle : n ≤ B + 1
  · have h1 : n - (B + 1) = 0 := by omega
    rw [h1]
    have hB : B / (B + 1) = 0 := Nat.div_eq_of_lt (by omega)
    rw [Nat.zero_add, hB]
    exact (Nat.div_eq_of_lt_le (by omega) (by omega)).symm
  · have hsum : n + B = (n - (B + 1) + B) + (B + 1) := by omega
    rw [hsum, Nat.add_div_right _ (Nat.succ_pos B)]

/-- The number of batches is the ceiling of the recipient count divided by
the batch size. -/
theorem chunkRecipients_length (B : Nat) :
    ∀ l : List α, (chunkRecipients (B + 1) l).length = (l.length + B) / (B + 1)
  | [] => by
    simp only [chunkRecipients, List.length_nil, Nat.zero_add]
    exact (Nat.div_eq_of_lt (by omega)).symm
  | x :: xs => by
    rw [chunkRecipients, List.length_cons,
      chunkRecipients_length B ((x :: xs).drop (B + 1))]
    simp only [List.length_drop, List.length_cons]
    exact ceil_div_step B (xs.length + 1) (by omega)
termination_by l => l.length
decreasing_by simp; omega

/-- Every batch is nonempty and no larger than the batch size. -/
theorem chunkRecipients_sizes (B : Nat) :
    ∀ l : List α, ∀ c ∈ chunkRecipients (B + 1) l, c.length ≤ B + 1 ∧ c ≠ []
  | [] => by simp [chunkRecipients]
  | x :: xs => by
    intro c hc
    rw [chunkRecipients] at hc
    rcases List.mem_cons.mp hc with hhead | htail
    · subst hhead
      refine ⟨by simp, ?_⟩
      simp [List.take_eq_nil_iff]
    · exact chunkRecipients_sizes B ((x :: xs).drop (B + 1)) c htail
termination_by l => l.length
decreasing_by simp; omega

/-- Every batch except possibly the last has length exactly the batch
size. -/
theorem chunkRecipients_dropLast (B : Nat) :
    ∀ l : List α, ∀ c ∈ (chunkRecipients (B + 1) l).dropLast, c.length = B + 1
  | [] => by simp [chunkRecipients]
  | x :: xs => by
    intro c hc
    rw [chunkRecipients] at hc
    by_cases hrest : (x :: xs).drop (B + 1) = []
    · rw [hrest] at hc
      simp [chunkRecipients] at hc
    · have hne : chunkRecipients (B + 1) ((x :: xs).drop (B + 1)) ≠ [] := by
        match hdrop : (x :: xs).drop (B + 1), hrest with
        | y :: ys, _ => exact hdrop ▸ chunkRecipients_ne_nil B y ys
      rw [List.dropLast_cons_of_ne_nil hne] at hc
      rcases List.mem_cons.mp hc with hhead | htail
      · subst hhead
        have hlong : B + 1 ≤ (x :: xs).length := by
          by_contra hshort
          exact hrest (List.drop_eq_nil_of_le (by omega))
        simp only [List.length_cons] at hlong
        simp only [List.length_take, List.length_cons]
        omega
      · exact chunkRecipients_dropLast B ((x :: xs).drop (B + 1)) c htail
termination_by l => l.length
decreasing_by simp; omega

/-- Demo recipients for concrete witnesses. -/
def mkRecipient (e : String) : EmailRecipient :=
  { email := e, name := none }

/-- C1: for every recipient list and every batch size `B ≥ 1`, the bulk
dispatch engine partitions the list into `ceil(N/B) = (N + B - 1) / B`
contiguous batches, each of size `B` except possibly the last (which is
nonempty and no larger than `B`), and concatenating the batches in order
yields the original list. -/
theorem C1_batchPartition (B : Nat) (l : List EmailRecipient) (hB : 1 ≤ B) :
    (chunkRecipients B l).flatten = l ∧
    (chunkRecipients B l).length = (l.length + (B - 1)) / B ∧
    (∀ c ∈ (chunkRecipients B l).dropLast, c.length = B) ∧
    (∀ c ∈ chunkRecipients B l, c.length ≤ B ∧ c ≠ []) := by
  obtain ⟨B', rfl⟩ : ∃ B', B = B' + 1 := ⟨B - 1, by omega⟩
  exact ⟨chunkRecipients_flatten B' l,
    by simpa using chunkRecipients_length B' l,
    chunkRecipients_dropLast B' l,
    chunkRecipients_sizes B' l⟩

/-- C1 (witness): the theorem applied at batch size 2 and a concrete
five-recipient list — 3 batches of sizes 2, 2, 1. -/
theorem C1_batchPartition_witness :
    1 ≤ 2 ∧
    ((chunkRecipients 2 [mkRecipient "a", mkRecipient "b", mkRecipient "c",
        mkRecipient "d", mkRecipient "e"]).flatten =
      [mkRecipient "a", mkRecipient "b", mkRecipient "c",
        mkRecipient "d", mkRecipient "e"] ∧
    (chunkRecipients 2 [mkRecipient "a", mkRecipient "b", mkRecipient "c",
        mkRecipient "d", mkRecipient "e"]).length =
      (([mkRecipient "a", mkRecipient "b", mkRecipient "c",
        mkRecipient "d", mkRecipient "e"]).length + (2 - 1)) / 2 ∧
    (∀ c ∈ (chunkRecipients 2 [mkRecipient "a", mkRecipient "b",
        mkRecipient "c", mkRecipient "d", mkRecipient "e"]).dropLast,
      c.length = 2) ∧
    (∀ c ∈ chunkRecipients 2 [mkRecipient "a", mkRecipient "b",
        mkRecipient "c", mkRecipient "d", mkRecipient "e"],
      c.length ≤ 2 ∧ c ≠ [])) :=
  ⟨by omega,
    C1_batchPartition 2 [mkRecipient "a", mkRecipient "b", mkRecipient "c",
      mkRecipient "d", mkRecipient "e"] (by omega)⟩

/-- `BulkResult`: the shape `sendBulkEmails` returns (spec §3 and the
`send-bulk-emails` response of requestHandler). Failures pair the recipient
email with the reason. -/
structure BulkResult where
  success : Bool
  totalSent : Nat
  totalFailed : Nat
  failures : List (String × String)
  message : String
deriving DecidableEq

/-- Modelled from the spec: `sendBulkEmails` of the emailService module,
which is not present under src/. Relay and template resolution (spec §4.3
steps 1–2) are summarized by the `resolve` oracle: when it fails, the whole
operation aborts before any send with `totalSent = 0` and `totalFailed`
equal to the full recipient count. Otherwise every recipient, batch by
batch, gets exactly one transport attempt through the `send` oracle;
totalSent counts successes, totalFailed counts failures, overall success is
`totalFailed == 0`, and failures list recipient and reason in dispatch
order. -/
def sendBulkEmails (resolve : Except String Unit)
    (send : EmailRecipient → Except String Unit)
    (recipients : List EmailRecipient) (batchSize : Nat) : BulkResult :=
  match resolve with
  | .error e =>
    { success := false, totalSent := 0, totalFailed := recipients.length,
      failures := recipients.map (fun r => (r.email, e)), message := e }
  | .ok _ =>
    let outcomes := ((chunkRecipients batchSize recipients).flatten).map
      (fun r => (r, send r))
    let sent := outcomes.countP (fun o => o.2.isOk)
    let failed := outcomes.countP (fun o => !o.2.isOk)
    { success := failed == 0,
      totalSent := sent,
      totalFailed := failed,
      failures := (outcomes.filter (fun o => !o.2.isOk)).map
        (fun o => (o.1.email, match o.2 with | .error e => e | .ok _ => "")),
      message := "Bulk email operation completed" }

/-- C2: for every bulk request with `batchSize ≥ 1`: when resolution
succeeds (the request completes without aborting), the result satisfies
`totalSent + totalFailed = number of recipients` and the overall success
flag is true exactly when `totalFailed = 0`; when resolution fails before
any send, the result reports overall failure with `totalSent = 0` and
`totalFailed` equal to the full recipient count. -/
theorem C2_bulkTotals (resolve : Except String Unit)
    (send : EmailRecipient → Except String Unit)
    (recipients : List EmailRecipient) (B : Nat) (hB : 1 ≤ B) :
    ((∃ u, resolve = .ok u) →
      (sendBulkEmails resolve send recipients B).totalSent +
          (sendBulkEmails resolve send recipients B).totalFailed =
        recipients.length ∧
      ((sendBulkEmails resolve send recipients B).success = true ↔
        (sendBulkEmails resolve send recipients B).totalFailed = 0)) ∧
    (∀ e, resolve = .error e →
      (sendBulkEmails resolve send recipients B).success = false ∧
      (sendBulkEmails resolve send recipients B).totalSent = 0 ∧
      (sendBulkEmails resolve send recipients B).totalFailed =
        recipients.length) := by
  obtain ⟨B', rfl⟩ : ∃ B', B = B' + 1 := ⟨B - 1, by omega⟩
  constructor
  · rintro ⟨u, rfl⟩
    constructor
    · simp only [sendBulkEmails]
      rw [chunkRecipients_flatten B' recipients]
      have hlen := List.length_eq_countP_add_countP
        (fun o : EmailRecipient × Except String Unit => o.2.isOk)
        (recipients.map (fun r => (r, send r)))
      rw [List.length_map] at hlen
      rw [hlen]
      congr 1
      exact List.countP_congr (fun o _ => by cases h : o.2.isOk <;> simp [h])
    · simp [sendBulkEmails]
  · rintro e rfl
    exact ⟨rfl, rfl, by simp [sendBulkEmails]⟩

/-- C2 (witness): the theorem applied to a concrete three-recipient request
at batch size 2 with a transport that fails on one recipient. -/
theorem C2_bulkTotals_witness :
    1 ≤ 2 ∧
    (((∃ u, (Except.ok () : Except String Unit) = .ok u) →
      (sendBulkEmails (.ok ()) (fun r => if r.email = "b" then .error "boom" else .ok ())
          [mkRecipient "a", mkRecipient "b", mkRecipient "c"] 2).totalSent +
          (sendBulkEmails (.ok ()) (fun r => if r.email = "b" then .error "boom" else .ok ())
            [mkRecipient "a", mkRecipient "b", mkRecipient "c"] 2).totalFailed =
        ([mkRecipient "a", mkRecipient "b", mkRecipient "c"]).length ∧
      ((sendBulkEmails (.ok ()) (fun r => if r.email = "b" then .error "boom" else .ok ())
          [mkRecipient "a", mkRecipient "b", mkRecipient "c"] 2).success = true ↔
        (sendBulkEmails (.ok ()) (fun r => if r.email = "b" then .error "boom" else .ok ())
          [mkRecipient "a", mkRecipient "b", mkRecipient "c"] 2).totalFailed = 0)) ∧
    (∀ e, (Except.ok () : Except String Unit) = .error e →
      (sendBulkEmails (.ok ()) (fun r => if r.email = "b" then .error "boom" else .ok ())
          [mkRecipient "a", mkRecipient "b", mkRecipient "c"] 2).success = false ∧
      (sendBulkEmails (.ok ()) (fun r => if r.email = "b" then .error "boom" else .ok ())
          [mkRecipient "a", mkRecipient "b", mkRecipient "c"] 2).totalSent = 0 ∧
      (sendBulkEmails (.ok ()) (fun r => if r.email = "b" then .error "boom" else .ok ())
          [mkRecipient "a", mkRecipient "b", mkRecipient "c"] 2).totalFailed =
        ([mkRecipient "a", mkRecipient "b", mkRecipient "c"]).length)) :=
  ⟨by omega,
    C2_bulkTotals (.ok ())
      (fun r => if r.email = "b" then .error "boom" else .ok ())
      [mkRecipient "a", mkRecipient "b", mkRecipient "c"] 2 (by omega)⟩

end SmtpMcp
